import Mathlib

set_option maxHeartbeats 1000000
set_option linter.unusedVariables false
set_option linter.unnecessarySeqFocus false

/-!
Shallow embedding of the type inference module (`typecheck.js`) of the
compiler-workshop repository, together with the parts of its input contract
(parse-tree node shapes) that the inference rules consume.

Modelling conventions:
* JS objects become inductive values.  The mutable `symlink` field of a
  `TypeVariable` object becomes an explicit `store` in the state mapping
  variable ids to the type their `symlink` points at; an id absent from the
  store is a variable whose `symlink` is still `null`.
* The module-global variables (`errors`, `currentScope`, `nonGeneric`,
  `nextTypeVarId`) become fields of an explicit state `St` threaded through
  every function.
* JS exceptions that the module can actually raise (reading a property of
  `undefined`/`null`, referencing the undeclared `scopes` variable on the
  line `scopes.pop()`) become an explicit `Crash` value in an `Except`; the
  state at the moment of the throw is carried alongside the crash.
* Functions whose JS recursion is not structural (`compress`, `occursIn`,
  `typeToString`, `freshInstance`, `unify` — they recurse through the
  variable store) take an explicit fuel argument; entry points pass a fuel
  that dominates every chain an actual run can build.  The string constants
  of the source's `Types` object (`"Number"`, `"Float"`, `"Bool"`,
  `"String"`, `"Unknown"`, `"Void"`) are inlined as the string literals
  they equal.
-/

/-- The type representation: `TypeVariable` (identified by its unique `id`;
its mutable `symlink` lives in the state's store, and its display name is
always `t<id>` because every `newTypeVar` call site passes `name = null`),
`PrimitiveType`, `FunctionType` and `ArrayType`. -/
inductive Ty where
  | tvar (id : Nat)
  | prim (type : String)
  | fn (paramTypes : List Ty) (returnType : Ty)
  | arr (elementType : Ty)

mutual

/-- A computable structural size for `Ty`, used for fuel bounds. -/
def tySize : Ty → Nat
  | .tvar _ => 1
  | .prim _ => 1
  | .fn paramTypes returnType => 1 + tyListSize paramTypes + tySize returnType
  | .arr elementType => 1 + tySize elementType

/-- Sum of `tySize` over a list. -/
def tyListSize : List Ty → Nat
  | [] => 0
  | t :: ts => tySize t + tyListSize ts

end

mutual

/-- Structural (boolean) equality of types, mirroring the way the source
compares type objects: two `TypeVariable`s are the same object exactly when
their ids are equal, and all other shapes are compared componentwise. -/
def Ty.beq : Ty → Ty → Bool
  | .tvar a, .tvar b => a == b
  | .prim a, .prim b => a == b
  | .fn ps1 r1, .fn ps2 r2 => Ty.beqList ps1 ps2 && Ty.beq r1 r2
  | .arr a, .arr b => Ty.beq a b
  | _, _ => false

/-- Componentwise `Ty.beq` on lists. -/
def Ty.beqList : List Ty → List Ty → Bool
  | [], [] => true
  | a :: as, b :: bs => Ty.beq a b && Ty.beqList as bs
  | _, _ => false

end

instance : BEq Ty := ⟨Ty.beq⟩

/-- `createFunctionType(paramTypes, returnType)`. -/
def createFunctionType (paramTypes : List Ty) (returnType : Ty) : Ty :=
  .fn paramTypes returnType

/-- `createArrayType(elementType)`. -/
def createArrayType (elementType : Ty) : Ty :=
  .arr elementType

/-- `primitive(type)`. -/
def primitive (type : String) : Ty :=
  .prim type

/-- Type-annotation nodes consumed by `createTypeFromAnnot`:
`TypeAnnotation` (with its `valueType` string), `ArrayTypeAnnotation`,
`FunctionTypeAnnotation` (each entry of `paramTypes` stands for the
`typeAnnotation` field of one parameter, which is what the source
extracts), and any other node kind (the `default` case). -/
inductive Annot where
  | simple (valueType : String)
  | array (elementType : Annot)
  | func (paramTypes : List Annot) (returnType : Annot)
  | other

/-- A function parameter as the inference rules read it: its `name` and an
optional `typeAnnotation` field (`typeAnnot` here). -/
structure Param where
  name : String
  typeAnnot : Option Annot

/-- Parse-tree nodes, one constructor per `type` discriminator the driver
dispatches on, with the fields the inference rules read.  `position` models
the optional source position used only for diagnostics; `constDeclaration`
additionally carries its `id` node's position (`idPosition`) because
`reportError` falls back to `node.id.position`.  `unknownNode` stands for a
node whose `type` tag is none of the known ones (the driver's `default`
case).  `arrowFunctionExpression` models block-bodied arrow functions
(`body` an array of statements); for an expression-bodied arrow the source
crashes even earlier, on `node.body.find`, before any of the behaviour the
claims are about. -/
inductive Node where
  | program (body : List Node)
  | numericLiteral (value : Rat) (position : Option Nat)
  | stringLiteral (value : String) (position : Option Nat)
  | booleanLiteral (value : Bool) (position : Option Nat)
  | arrayLiteral (elements : List Node) (position : Option Nat)
  | expressionStatement (expression : Node) (position : Option Nat)
  | identifier (name : String) (position : Option Nat)
  | binaryExpression (operator : String) (left right : Node) (position : Option Nat)
  | conditionalExpression (test consequent alternate : Node) (position : Option Nat)
  | arrowFunctionExpression (params : List Param) (body : List Node)
      (returnTypeAnnot : Option Annot) (position : Option Nat)
  | callExpression (callee : Node) (arguments : List Node) (position : Option Nat)
  | memberExpression (object index : Node) (position : Option Nat)
  | constDeclaration (idName : String) (idPosition : Option Nat)
      (typeAnnot : Option Annot) (init : Node) (position : Option Nat)
  | returnStatement (argument : Option Node) (position : Option Nat)
  | unknownNode (typeName : String) (position : Option Nat)

/-- A recorded type error: the formatted `message` and the `node` it was
reported at, exactly the two fields `reportError` pushes. -/
structure TError where
  message : String
  node : Node

/-- The JS exceptions the module can raise.  `scopesUndefined` is the
ReferenceError raised by `scopes.pop()` (the variable `scopes` is declared
nowhere in the module); `undefinedLookup name` is the TypeError raised when
`getType` finds no binding for `name` and `freshInstance(undefined)`
dereferences `undefined.kind` inside `compress`; `nullNode` is the
TypeError raised when `infer` is applied to `null`/`undefined` (reading
`node.type`), as happens for a `ReturnStatement` whose `argument` is
`null`. -/
inductive Crash where
  | scopesUndefined
  | undefinedLookup (name : String)
  | nullNode

/-- The module-global mutable state: the error list, the current scope
(`scopeFrames` models the prototype chain of `currentScope`, innermost
frame first), the `nonGeneric` set (membership is tested with `Ty.beq`,
which coincides with the source's reference equality on the values actual
runs store there), the `nextTypeVarId` counter, and the `store` holding
every `symlink` assignment made so far (`id ↦ target`). -/
structure St where
  errors : List TError
  scopeFrames : List (List (String × Ty))
  nonGeneric : List Ty
  nextTypeVarId : Nat
  store : List (Nat × Ty)

/-- The state `typecheck` resets to before running: empty error list, one
empty scope frame (`currentScope = {}`), empty non-generic set, counter 0,
and no `symlink` set anywhere. -/
def initialState : St :=
  { errors := [], scopeFrames := [[]], nonGeneric := [], nextTypeVarId := 0, store := [] }

/-- Sum of the sizes of the types bound in the store, plus one per
binding: a computable bound on how much structure the store holds. -/
def storeSize (store : List (Nat × Ty)) : Nat :=
  store.foldr (fun p acc => 1 + tySize p.2 + acc) 0

/-- Name lookup through the prototype chain of `currentScope`: the first
frame that binds the name wins (an inner frame shadows outer ones). -/
def scopeLookup : List (List (String × Ty)) → String → Option Ty
  | [], _ => none
  | frame :: rest, name =>
    match frame.lookup name with
    | some type => some type
    | none => scopeLookup rest name

/-- `currentScope[name] = type`: writes always go to the innermost frame
(own-property assignment on the prototype-chained scope object). -/
def setVar (s : St) (name : String) (type : Ty) : St :=
  match s.scopeFrames with
  | [] => { s with scopeFrames := [[(name, type)]] }
  | frame :: rest => { s with scopeFrames := ((name, type) :: frame) :: rest }

/-- `pushScope()`: `currentScope = Object.create(outerScope)` — a fresh
empty frame whose lookups fall through to the enclosing chain.  Note the
source has no matching `popScope`; the only popping attempt is the
`scopes.pop()` crash modelled in the arrow-function rule. -/
def pushScope (s : St) : St :=
  { s with scopeFrames := [] :: s.scopeFrames }

/-- Fueled core of `compress`: follow the `symlink` chain of a type
variable through the store. -/
def compressN : Nat → List (Nat × Ty) → Ty → Ty
  | 0, _, type => type
  | fuel + 1, store, type =>
    match type with
    | .tvar id =>
      match store.lookup id with
      | some target => compressN fuel store target
      | none => type
    | _ => type

/-- `compress(type)`.  The source additionally performs path compression
(rewriting the traversed `symlink` fields to point at the final type);
that rewriting never changes the result of any later `compress`, so the
pure version omits it.  A chain consumes pairwise distinct store bindings
(the occurs check keeps the store acyclic), so `store.length + 1` steps of
fuel dominate every chain an actual run can build. -/
def compress (s : St) (type : Ty) : Ty :=
  compressN (s.store.length + 1) s.store type

/-- Fueled core of `occursIn`: compress, check direct identity, recurse
structurally into function and array types. -/
def occursInN : Nat → List (Nat × Ty) → Nat → Ty → Bool
  | 0, _, _, _ => false
  | fuel + 1, store, typeVar, type =>
    match compressN (store.length + 1) store type with
    | .tvar id => id == typeVar
    | .fn paramTypes returnType =>
      paramTypes.any (fun paramType => occursInN fuel store typeVar paramType)
        || occursInN fuel store typeVar returnType
    | .arr elementType => occursInN fuel store typeVar elementType
    | .prim _ => false

/-- `occursIn(typeVar, type)` with fuel dominating the expansion depth of
`type` through the (acyclic) store. -/
def occursIn (s : St) (typeVar : Nat) (type : Ty) : Bool :=
  occursInN (storeSize s.store + tySize type + 1) s.store typeVar type

/-- Fueled core of `typeToString`.  The `"UnknownType"` fallthrough of the
source is reused as the (unreachable in actual runs) fuel-exhaustion
answer. -/
def typeToStringN : Nat → List (Nat × Ty) → Ty → String
  | 0, _, _ => "UnknownType"
  | fuel + 1, store, type =>
    match compressN (store.length + 1) store type with
    | .tvar id => "t" ++ toString id
    | .prim t => t
    | .fn paramTypes returnType =>
      let paramTypeStrs := paramTypes.map (fun paramType =>
        match compressN (store.length + 1) store paramType with
        | .fn _ _ => "(" ++ typeToStringN fuel store paramType ++ ")"
        | _ => typeToStringN fuel store paramType)
      "(" ++ String.intercalate ", " paramTypeStrs ++ ") -> "
        ++ typeToStringN fuel store returnType
    | .arr elementType => "Array<" ++ typeToStringN fuel store elementType ++ ">"

/-- `typeToString(type)`: render a type for error messages. -/
def typeToString (s : St) (type : Ty) : String :=
  typeToStringN (storeSize s.store + tySize type + 1) s.store type

/-- `node.position`, for every node shape. -/
def nodePosition : Node → Option Nat
  | .program _ => none
  | .numericLiteral _ p => p
  | .stringLiteral _ p => p
  | .booleanLiteral _ p => p
  | .arrayLiteral _ p => p
  | .expressionStatement _ p => p
  | .identifier _ p => p
  | .binaryExpression _ _ _ p => p
  | .conditionalExpression _ _ _ p => p
  | .arrowFunctionExpression _ _ _ p => p
  | .callExpression _ _ p => p
  | .memberExpression _ _ p => p
  | .constDeclaration _ _ _ _ p => p
  | .returnStatement _ p => p
  | .unknownNode _ p => p

/-- `node.id && node.id.position`: only `ConstDeclaration` nodes carry an
`id` child. -/
def nodeIdPosition : Node → Option Nat
  | .constDeclaration _ idPos _ _ _ => idPos
  | _ => none

/-- The location string `reportError` computes: the node's own `position`,
else its `id`'s position, else `"unknown position"`. -/
def locationOf (node : Node) : String :=
  match nodePosition node with
  | some p => "position " ++ toString p
  | none =>
    match nodeIdPosition node with
    | some p => "position " ++ toString p
    | none => "unknown position"

/-- `reportError(message, node)`: append `{message: "<message> at <loc>",
node}` to the error list. -/
def reportError (message : String) (node : Node) (s : St) : St :=
  { s with errors := s.errors ++ [⟨message ++ " at " ++ locationOf node, node⟩] }

/-- `newTypeVar()`: allocate a fresh type variable with the next id (the
`name`/`context` arguments of the source only affect the display name,
which is always `t<id>` since every call site passes `name = null`). -/
def newTypeVar (s : St) : St × Ty :=
  ({ s with nextTypeVarId := s.nextTypeVarId + 1 }, .tvar s.nextTypeVarId)

mutual

/-- Fueled core of `freshInstance(type, mappings)`.  In the `TypeVariable`
case the source executes `mappings.set(type, newTypeVar(...))` and returns
`mappings.get(type)` — the get immediately after the set always yields the
variable just created; the source never consults a pre-existing entry of
`mappings` before overwriting it. -/
def freshInstanceN : Nat → St → Ty → List (Nat × Ty) → St × Ty × List (Nat × Ty)
  | 0, s, type, mappings => (s, type, mappings)
  | fuel + 1, s, type, mappings =>
    match compress s type with
    | .tvar id =>
      let (s', fresh) := newTypeVar s
      (s', fresh, (id, fresh) :: mappings)
    | .fn paramTypes returnType =>
      let (s1, freshParamTypes, m1) := freshInstanceListN fuel s paramTypes mappings
      let (s2, freshReturn, m2) := freshInstanceN fuel s1 returnType m1
      (s2, .fn freshParamTypes freshReturn, m2)
    | .arr elementType =>
      let (s1, freshElem, m1) := freshInstanceN fuel s elementType mappings
      (s1, .arr freshElem, m1)
    | .prim t => (s, .prim t, mappings)

/-- `paramTypes.map(paramType => freshInstance(paramType, mappings))`,
threading the state and the mappings left to right. -/
def freshInstanceListN : Nat → St → List Ty → List (Nat × Ty) → St × List Ty × List (Nat × Ty)
  | 0, s, ts, mappings => (s, ts, mappings)
  | _ + 1, s, [], mappings => (s, [], mappings)
  | fuel + 1, s, t :: ts, mappings =>
    let (s1, t', m1) := freshInstanceN fuel s t mappings
    let (s2, ts', m2) := freshInstanceListN fuel s1 ts m1
    (s2, t' :: ts', m2)

end

/-- `freshInstance(type)` with the default fresh `mappings` map and fuel
dominating the expansion depth of `type` through the store. -/
def freshInstance (s : St) (type : Ty) : St × Ty :=
  let (s', t', _) := freshInstanceN (storeSize s.store + tySize type + 1) s type []
  (s', t')

/-- `getType(name)`: look the name up through the scope chain; a
non-generic hit is returned as-is, any other hit is freshly instantiated.
A missing binding makes the source call `freshInstance(undefined)`, which
throws a TypeError inside `compress` — modelled as the `undefinedLookup`
crash. -/
def getType (s : St) (name : String) : Except (Crash × St) (St × Ty) :=
  match scopeLookup s.scopeFrames name with
  | none => .error (.undefinedLookup name, s)
  | some type =>
    if s.nonGeneric.contains type then .ok (s, type)
    else .ok (freshInstance s type)

mutual

/-- Fueled core of `unify(t1, t2, node)`, mirroring the source's case
chain after compressing both inputs: (1) `t1` a variable — no-op on
identity, occurs check then `symlink` assignment; (2) both function types
— arity check, pairwise parameter unification, return-type unification;
(3) both array types; (4) both primitives; (5) `t2` a variable — swap;
(6) incompatible. -/
def unifyN : Nat → St → Ty → Ty → Node → St
  | 0, s, _, _, _ => s
  | fuel + 1, s, t1, t2, node =>
    let c1 := compress s t1
    let c2 := compress s t2
    match c1, c2 with
    | .tvar id, _ =>
      if Ty.beq c2 (.tvar id) then s
      else if occursIn s id c2 then
        reportError ("Infinite unification: cannot unify " ++ typeToString s c1
          ++ " with " ++ typeToString s c2) node s
      else { s with store := (id, c2) :: s.store }
    | .fn paramTypes1 returnType1, .fn paramTypes2 returnType2 =>
      if paramTypes1.length ≠ paramTypes2.length then
        reportError ("Function parameter count mismatch: " ++ typeToString s c1
          ++ " vs " ++ typeToString s c2) node s
      else
        let s1 := unifyListN fuel s paramTypes1 paramTypes2 node
        unifyN fuel s1 returnType1 returnType2 node
    | .arr elementType1, .arr elementType2 =>
      unifyN fuel s elementType1 elementType2 node
    | .prim p1, .prim p2 =>
      if p1 ≠ p2 then
        reportError ("Type mismatch: " ++ typeToString s c1
          ++ " is not compatible with " ++ typeToString s c2) node s
      else s
    | _, .tvar _ => unifyN fuel s c2 c1 node
    | _, _ =>
      reportError ("Cannot unify " ++ typeToString s c1 ++ " with "
        ++ typeToString s c2) node s

/-- The parameter loop of the function-type case: unify `ts1[i]` with
`ts2[i]` in order, threading the state (the lists have equal length when
this is reached). -/
def unifyListN : Nat → St → List Ty → List Ty → Node → St
  | 0, s, _, _, _ => s
  | _ + 1, s, [], _, _ => s
  | _ + 1, s, _ :: _, [], _ => s
  | fuel + 1, s, t1 :: ts1, t2 :: ts2, node =>
    let s1 := unifyN fuel s t1 t2 node
    unifyListN fuel s1 ts1 ts2 node

end

/-- `unify(t1, t2, node)` with fuel dominating the recursion depth of any
actual run (each structural descent walks into pre-existing type terms,
and the occurs check keeps symlink chains acyclic). -/
def unify (s : St) (t1 t2 : Ty) (node : Node) : St :=
  unifyN (storeSize s.store + tySize t1 + tySize t2 + 1) s t1 t2 node

mutual

/-- `createTypeFromAnnotation(annotation)` (named `createTypeFromAnnot`
here): convert a type annotation to a type; unrecognized `valueType`
strings and unrecognized annotation node kinds yield a fresh type
variable.  In the function case the source converts the return type
first, then the parameter annotations. -/
def createTypeFromAnnot (s : St) : Annot → St × Ty
  | .simple valueType =>
    match valueType with
    | "number" => (s, .prim "Number")
    | "string" => (s, .prim "String")
    | "boolean" => (s, .prim "Bool")
    | "void" => (s, .prim "Void")
    | _ => newTypeVar s
  | .array elementType =>
    let (s1, e) := createTypeFromAnnot s elementType
    (s1, createArrayType e)
  | .func paramTypes returnType =>
    let (s1, r) := createTypeFromAnnot s returnType
    let (s2, ps) := createTypeFromAnnotList s1 paramTypes
    (s2, createFunctionType ps r)
  | .other => newTypeVar s
termination_by a => sizeOf a

/-- The `annotation.paramTypes.map(...)` loop of the function-annotation
case, threading the state left to right. -/
def createTypeFromAnnotList (s : St) : List Annot → St × List Ty
  | [] => (s, [])
  | a :: as =>
    let (s1, t) := createTypeFromAnnot s a
    let (s2, ts) := createTypeFromAnnotList s1 as
    (s2, t :: ts)
termination_by as => sizeOf as

end

/-- `compress(t).kind === "PrimitiveType" && compress(t).type ===
Types.String`: the string-operand test of the `+` rule. -/
def isStringType (s : St) (t : Ty) : Bool :=
  match compress s t with
  | .prim p => p == "String"
  | _ => false

/-- `compress(t).kind === "PrimitiveType" && numericTypes.includes(
compress(t).type)` with `numericTypes = [Number, Float]`. -/
def isNumericType (s : St) (t : Ty) : Bool :=
  match compress s t with
  | .prim p => p == "Number" || p == "Float"
  | _ => false

/-- `compress(t).kind === "TypeVariable"`: an operand whose type is still
an unresolved variable is provisionally accepted as numeric. -/
def isTypeVariable (s : St) (t : Ty) : Bool :=
  match compress s t with
  | .tvar _ => true
  | _ => false

/-- The operator dispatch of `inferTypeBinaryExpression` after both
operand types have been inferred: `node` is the whole binary-expression
node, `left`/`right` its operand nodes (used for error positions). -/
def binOpRule (s : St) (operator : String) (leftType rightType : Ty)
    (node left right : Node) : St × Ty :=
  match operator with
  | "+" =>
    let leftIsString := isStringType s leftType
    let rightIsString := isStringType s rightType
    if leftIsString && rightIsString then
      (s, primitive "String")
    else if leftIsString || rightIsString then
      (reportError "Cannot concatenate string with non-string value" node s,
        primitive "String")
    else
      if (isNumericType s leftType || isTypeVariable s leftType)
          && (isNumericType s rightType || isTypeVariable s rightType) then
        let resultType := primitive "Number"
        let s1 := unify s leftType resultType left
        let s2 := unify s1 rightType resultType right
        (s2, resultType)
      else
        newTypeVar (reportError
          "The '+' operator requires either numeric operands or string operands"
          node s)
  | "-" | "*" | "/" =>
    let numericType := primitive "Number"
    let s1 := unify s leftType numericType left
    let s2 := unify s1 rightType numericType right
    (s2, numericType)
  | ">" | "<" | ">=" | "<=" =>
    let numericType := primitive "Number"
    let s1 := unify s leftType numericType left
    let s2 := unify s1 rightType numericType right
    (s2, primitive "Bool")
  | "==" | "!=" =>
    (unify s leftType rightType node, primitive "Bool")
  | _ =>
    newTypeVar (reportError ("Unsupported binary operator: " ++ operator) node s)

/-- The parameter-binding loop of `inferTypeFunction`: for each parameter
take its annotation's converted type or a fresh variable, bind it in the
current scope, add it to the non-generic set, and collect the parameter
types in order. -/
def bindParams (s : St) : List Param → St × List Ty
  | [] => (s, [])
  | p :: ps =>
    let (s1, paramType) :=
      match p.typeAnnot with
      | some ann => createTypeFromAnnot s ann
      | none => newTypeVar s
    let s2 := setVar s1 p.name paramType
    let s3 := { s2 with nonGeneric := paramType :: s2.nonGeneric }
    let (s4, rest) := bindParams s3 ps
    (s4, paramType :: rest)

/-- `stmt.type === "ReturnStatement"`. -/
def isReturnStatement : Node → Bool
  | .returnStatement _ _ => true
  | _ => false

mutual

/-- A computable structural size for parse-tree nodes, used to compute the
recursion fuel of the inference driver: positions, names and literal
values do not contribute, structural children do. -/
def nodeSize : Node → Nat
  | .program body => 1 + nodeListSize body
  | .numericLiteral _ _ => 1
  | .stringLiteral _ _ => 1
  | .booleanLiteral _ _ => 1
  | .arrayLiteral elements _ => 1 + nodeListSize elements
  | .expressionStatement expression _ => 1 + nodeSize expression
  | .identifier _ _ => 1
  | .binaryExpression _ left right _ => 1 + nodeSize left + nodeSize right
  | .conditionalExpression test consequent alternate _ =>
    1 + nodeSize test + nodeSize consequent + nodeSize alternate
  | .arrowFunctionExpression _ body _ _ => 1 + nodeListSize body
  | .callExpression callee arguments _ => 1 + nodeSize callee + nodeListSize arguments
  | .memberExpression object index _ => 1 + nodeSize object + nodeSize index
  | .constDeclaration _ _ _ init _ => 1 + nodeSize init
  | .returnStatement (some argument) _ => 1 + nodeSize argument
  | .returnStatement none _ => 1
  | .unknownNode _ _ => 1

/-- Sum of `nodeSize` over a list, plus one per element and one for the
end of the list. -/
def nodeListSize : List Node → Nat
  | [] => 1
  | n :: rest => 1 + nodeSize n + nodeListSize rest

end

mutual

/-- Fueled core of `infer(node)`: the main dispatch.  Each case mirrors
the rule function of the source for the corresponding node kind; the
per-rule functions that only loop over child lists appear as the sibling
definitions of this mutual block.  Every recursive call decrements the
fuel, so the recursion is structural on the fuel; the entry point `infer`
passes `2 * nodeSize node + 1`, which dominates the depth of the source's
recursion (each rule recurses only into structurally smaller children).
The fuel-0 answers are never reached from the entry point.  The
`inferredType` annotations the source writes onto tree nodes are not
modelled (nothing in the module reads them back). -/
def inferF : Nat → St → Node → Except (Crash × St) (St × Ty)
  | 0, s, _ => .ok (s, primitive "Unknown")
  | fuel + 1, s, node =>
    match node with
    | .program body => inferTypeProgramBody fuel s (primitive "Unknown") body
    | .numericLiteral value _ =>
      .ok (s, if value.den == 1 then primitive "Number" else primitive "Float")
    | .stringLiteral _ _ => .ok (s, primitive "String")
    | .booleanLiteral _ _ => .ok (s, primitive "Bool")
    | .arrayLiteral elements pos =>
      match elements with
      | [] =>
        let (s', elemType) := newTypeVar s
        .ok (s', createArrayType elemType)
      | e0 :: rest =>
        match inferF fuel s e0 with
        | .error e => .error e
        | .ok (s1, elementType) =>
          match inferArrayRest fuel s1 elementType rest with
          | .error e => .error e
          | .ok s2 => .ok (s2, createArrayType elementType)
    | .expressionStatement expression _ => inferF fuel s expression
    | .identifier name _ => getType s name
    | .binaryExpression operator left right pos =>
      match inferF fuel s left with
      | .error e => .error e
      | .ok (s1, leftType) =>
        match inferF fuel s1 right with
        | .error e => .error e
        | .ok (s2, rightType) =>
          .ok (binOpRule s2 operator leftType rightType
            (Node.binaryExpression operator left right pos) left right)
    | .conditionalExpression test consequent alternate _ =>
      match inferF fuel s test with
      | .error e => .error e
      | .ok (s1, conditionType) =>
        let s1b := unify s1 conditionType (primitive "Bool") test
        match inferF fuel s1b consequent with
        | .error e => .error e
        | .ok (s2, thenBranchType) =>
          match inferF fuel s2 alternate with
          | .error e => .error e
          | .ok (s3, elseBranchType) =>
            let (s4, resultType) := newTypeVar s3
            let s5 := unify s4 thenBranchType resultType consequent
            let s6 := unify s5 elseBranchType resultType alternate
            .ok (s6, resultType)
    | .arrowFunctionExpression params body retAnn pos =>
      inferTypeFunction fuel s params body retAnn pos
    | .callExpression callee arguments pos =>
      match inferF fuel s callee with
      | .error e => .error e
      | .ok (s1, fnType0) =>
        let fnType := compress s1 fnType0
        match fnType with
        | .fn paramTypes returnType =>
          if arguments.length ≠ paramTypes.length then
            .ok (reportError ("Expected " ++ toString paramTypes.length
              ++ " arguments but got " ++ toString arguments.length)
              (Node.callExpression callee arguments pos) s1, returnType)
          else
            match inferCallArgsUnify fuel s1 arguments paramTypes with
            | .error e => .error e
            | .ok s2 => .ok (s2, returnType)
        | .tvar _ =>
          let (s2, returnType) := newTypeVar s1
          match inferCallArgsCollect fuel s2 arguments with
          | .error e => .error e
          | .ok (s3, argTypes) =>
            let funcType := createFunctionType argTypes returnType
            let s4 := unify s3 fnType funcType
              (Node.callExpression callee arguments pos)
            .ok (s4, returnType)
        | _ =>
          .ok (newTypeVar (reportError "Called value is not a function"
            (Node.callExpression callee arguments pos) s1))
    | .memberExpression object index pos =>
      match inferF fuel s object with
      | .error e => .error e
      | .ok (s1, objectType0) =>
        let objectType := compress s1 objectType0
        match inferF fuel s1 index with
        | .error e => .error e
        | .ok (s2, indexType) =>
          let s3 := unify s2 indexType (primitive "Number") index
          match objectType with
          | .arr elementType => .ok (s3, elementType)
          | _ =>
            let (s4, elementType) := newTypeVar s3
            let arrayType := createArrayType elementType
            let s5 := unify s4 objectType arrayType object
            .ok (s5, elementType)
    | .constDeclaration idName idPos tyAnn init pos =>
      match inferF fuel s init with
      | .error e => .error e
      | .ok (s1, initType) =>
        match tyAnn with
        | some ann =>
          let (s2, annotatedType) := createTypeFromAnnot s1 ann
          let s3 := unify s2 initType annotatedType
            (Node.constDeclaration idName idPos tyAnn init pos)
          .ok (setVar s3 idName annotatedType, annotatedType)
        | none =>
          .ok (setVar s1 idName initType, initType)
    | .returnStatement argument _ =>
      match argument with
      | some a => inferF fuel s a
      | none => .error (.nullNode, s)
    | .unknownNode typeName pos =>
      .ok (newTypeVar (reportError ("Unknown node type: " ++ typeName)
        (Node.unknownNode typeName pos) s))

/-- The statement loop of `inferTypeProgram`: infer each statement in
order; the program's type is the last statement's type (`Unknown` for an
empty body). -/
def inferTypeProgramBody : Nat → St → Ty → List Node → Except (Crash × St) (St × Ty)
  | 0, s, resultType, _ => .ok (s, resultType)
  | _ + 1, s, resultType, [] => .ok (s, resultType)
  | fuel + 1, s, _, statement :: rest =>
    match inferF fuel s statement with
    | .error e => .error e
    | .ok (s1, t) => inferTypeProgramBody fuel s1 t rest

/-- The element loop of `inferTypeArrayLiteral`: unify every further
element's type with the first element's type, threading the state. -/
def inferArrayRest : Nat → St → Ty → List Node → Except (Crash × St) St
  | 0, s, _, _ => .ok s
  | _ + 1, s, _, [] => .ok s
  | fuel + 1, s, elementType, el :: rest =>
    match inferF fuel s el with
    | .error e => .error e
    | .ok (s1, nextElemType) =>
      inferArrayRest fuel (unify s1 elementType nextElemType el) elementType rest

/-- The argument loop of `inferTypeCallExpression` in the
not-yet-a-function case: infer every argument, collecting the types. -/
def inferCallArgsCollect : Nat → St → List Node → Except (Crash × St) (St × List Ty)
  | 0, s, _ => .ok (s, [])
  | _ + 1, s, [] => .ok (s, [])
  | fuel + 1, s, arg :: rest =>
    match inferF fuel s arg with
    | .error e => .error e
    | .ok (s1, argType) =>
      match inferCallArgsCollect fuel s1 rest with
      | .error e => .error e
      | .ok (s2, ts) => .ok (s2, argType :: ts)

/-- The argument loop of `inferTypeCallExpression` in the known-function
case: infer each argument and unify it with the matching parameter type
(the lists have equal length when this is reached). -/
def inferCallArgsUnify : Nat → St → List Node → List Ty → Except (Crash × St) St
  | 0, s, _, _ => .ok s
  | _ + 1, s, [], _ => .ok s
  | _ + 1, s, _ :: _, [] => .ok s
  | fuel + 1, s, arg :: rest, paramType :: ps =>
    match inferF fuel s arg with
    | .error e => .error e
    | .ok (s1, argType) =>
      inferCallArgsUnify fuel (unify s1 paramType argType arg) rest ps

/-- `node.body.find(stmt => stmt.type === "ReturnStatement")` followed by
the inference of the found statement's argument: walk the body to the
first return statement; give its argument's type, `Void` when the
argument is absent, and `none` when the body has no return statement. -/
def inferFirstReturn : Nat → St → List Node → Except (Crash × St) (St × Option Ty)
  | 0, s, _ => .ok (s, none)
  | _ + 1, s, [] => .ok (s, none)
  | fuel + 1, s, .returnStatement (some argument) _ :: _ =>
    (match inferF fuel s argument with
     | .error e => .error e
     | .ok (s1, t) => .ok (s1, some t))
  | _ + 1, s, .returnStatement none _ :: _ => .ok (s, some (primitive "Void"))
  | fuel + 1, s, _ :: rest => inferFirstReturn fuel s rest

/-- The `statement !== returnStatement` loop of `inferTypeFunction`:
infer every statement of the body except the first return statement (the
one the `find` located; reference inequality skips exactly that one).
When the body has no return statement nothing is skipped, which is also
the source's no-return loop. -/
def inferFnStmtsSkippingReturn : Nat → St → Bool → List Node → Except (Crash × St) St
  | 0, s, _, _ => .ok s
  | _ + 1, s, _, [] => .ok s
  | fuel + 1, s, skipped, stmt :: rest =>
    if isReturnStatement stmt && !skipped then
      inferFnStmtsSkippingReturn fuel s true rest
    else
      match inferF fuel s stmt with
      | .error e => .error e
      | .ok (s1, _) => inferFnStmtsSkippingReturn fuel s1 skipped rest

/-- `inferTypeFunction(node)` for `ArrowFunctionExpression`: push a scope,
copy the non-generic set, bind the parameters, infer the return type from
the first return statement (or `Void`), infer the remaining statements,
apply the return-type annotation if any, build the function type — and
then execute `scopes.pop()`, which throws a ReferenceError because the
module declares no `scopes` variable.  The lines that would restore
`nonGeneric` and return the function type are never reached, so the rule
always crashes (with the state as mutated so far), either with an inner
crash from the body or with `scopesUndefined` at the end; the fuel-0
answer is chosen to agree with that invariant. -/
def inferTypeFunction : Nat → St → List Param → List Node → Option Annot →
    Option Nat → Except (Crash × St) (St × Ty)
  | 0, s, _, _, _, _ => .error (.scopesUndefined, s)
  | fuel + 1, s, params, body, retAnn, pos =>
    let s1 := pushScope s
    -- const outerNonGeneric = nonGeneric; nonGeneric = new Set(outerNonGeneric):
    -- the copy is structurally identical to the original, so no state change.
    let (s2, paramTypes) := bindParams s1 params
    match inferFirstReturn fuel s2 body with
    | .error e => .error e
    | .ok (s3, found) =>
      match inferFnStmtsSkippingReturn fuel s3 false body with
      | .error e => .error e
      | .ok s4 =>
        let inferredReturnType :=
          match found with
          | some t => t
          | none => primitive "Void"
        let (s5, returnType) :=
          match retAnn with
          | some ann =>
            let (sa, annTy) := createTypeFromAnnot s4 ann
            (unify sa inferredReturnType annTy
              (Node.arrowFunctionExpression params body retAnn pos), annTy)
          | none => (s4, inferredReturnType)
        let functionType := createFunctionType paramTypes returnType
        -- scopes.pop(): ReferenceError — `scopes` is not declared anywhere.
        -- `nonGeneric = outerNonGeneric` and `return functionType` never run.
        let _ := functionType
        .error (.scopesUndefined, s5)

end

/-- `infer(node)`: run the fueled driver with fuel that dominates the
recursion depth of the source's traversal of `node`. -/
def infer (s : St) (node : Node) : Except (Crash × St) (St × Ty) :=
  inferF (2 * nodeSize node + 1) s node

/-- The inference part of `typecheck`: wrap an array argument into a
`Program` node, run `infer`, and return the accumulated error list (a
thrown JS exception propagates out of `typecheck`). -/
def runTypecheck (s0 : St) (node : List Node ⊕ Node) :
    Except (Crash × St) (List TError) :=
  match node with
  | .inl statements =>
    match infer s0 (.program statements) with
    | .error e => .error e
    | .ok (s1, _) => .ok s1.errors
  | .inr n =>
    match infer s0 n with
    | .error e => .error e
    | .ok (s1, _) => .ok s1.errors

/-- `typecheck(node, nameErrors)`: reset the module-global state, return
`{errors: nameErrors}` untouched when the name-resolution pass reported
any errors, and otherwise run inference on the tree (wrapping an array of
statements into a `Program` node) and return the collected type errors. -/
def typecheck (node : List Node ⊕ Node) (nameErrors : Option (List TError)) :
    Except (Crash × St) (List TError) :=
  let s0 := initialState
  match nameErrors with
  | some es => if es.length > 0 then .ok es else runTypecheck s0 node
  | none => runTypecheck s0 node

/-- The crash component of an inference result, if it crashed. -/
def crashOf : Except (Crash × St) (St × Ty) → Option Crash
  | .error (c, _) => some c
  | .ok _ => none

/-- The returned type of an inference result, if it completed. -/
def resultTy : Except (Crash × St) (St × Ty) → Option Ty
  | .ok (_, t) => some t
  | .error _ => none

/-- The accumulated error list of an inference result, if it completed. -/
def resultErrors : Except (Crash × St) (St × Ty) → Option (List TError)
  | .ok (s, _) => some s.errors
  | .error _ => none

/-- The returned type of an inference result compressed in the final
state, if it completed. -/
def finalTyCompressed : Except (Crash × St) (St × Ty) → Option Ty
  | .ok (s, t) => some (compress s t)
  | .error _ => none

/-- The parse tree of `const x = 5; const y = x ? 1 : 2;` as the parser
delivers it (identifier and literal nodes carry their source offsets). -/
def c6prog : List Node :=
  [ .constDeclaration "x" (some 6) none (.numericLiteral 5 (some 10)) none,
    .constDeclaration "y" (some 22) none
      (.conditionalExpression (.identifier "x" (some 26))
        (.numericLiteral 1 (some 30)) (.numericLiteral 2 (some 34)) none) none ]

/-- The condition node of the ternary in `c6prog`. -/
def c6condition : Node := .identifier "x" (some 26)

/-- The parse tree of `const arr = [1, "a", 3];`. -/
def c7prog : List Node :=
  [ .constDeclaration "arr" (some 6) none
      (.arrayLiteral [.numericLiteral 1 (some 13), .stringLiteral "a" (some 16),
        .numericLiteral 3 (some 21)] none) none ]

/-- A binary `+` whose left operand is a boolean literal — a concrete
non-numeric, non-string operand type. -/
def c3node : Node :=
  .binaryExpression "+" (.booleanLiteral true none) (.numericLiteral 1 none) none

/-- A one-parameter arrow function `(x) => { return x; }`. -/
def c1arrow : Node :=
  .arrowFunctionExpression [⟨"x", none⟩]
    [.returnStatement (some (.identifier "x" none)) none] none none

/-- A state in which type variable `t0` exists (unbound) and nothing else
is resolved. -/
def c4state : St := { initialState with nextTypeVarId := 1 }

/-- The node handed to the synthetic self-referential unification
attempt. -/
def c4node : Node := .unknownNode "synthetic" none

/-- A stand-in name-resolution error. -/
def c5err : TError := ⟨"duplicate declaration of x", .program []⟩

/-- C1: for every `ArrowFunctionExpression`, inference never completes:
`inferTypeFunction` ends every path in a thrown exception — either a crash
from inside the body, or the `ReferenceError` of `scopes.pop()` on the
undeclared `scopes` variable — so it never pops the scope, never restores
the enclosing non-generic set, and never returns the constructed
`Function` type.  The second conjunct evaluates the concrete function
`(x) => { return x; }`, which reaches `scopes.pop()` and crashes there. -/
theorem arrowFunction_inference_always_crashes :
    (∀ (fuel : Nat) (s : St) (params : List Param) (body : List Node)
      (retAnn : Option Annot) (pos : Option Nat),
      (inferTypeFunction fuel s params body retAnn pos).isOk = false)
  ∧ crashOf (infer initialState c1arrow) = some Crash.scopesUndefined := by
  constructor
  · intro fuel s params body retAnn pos
    cases fuel with
    | zero => rfl
    | succ n =>
      simp only [inferTypeFunction]
      split
      · rfl
      · split
        · rfl
        · rfl
  · rfl

/-- C2: `freshInstance` does not map the same source variable to the same
fresh variable within one instantiation: instantiating `(t0) -> t0` (one
shared unbound variable) yields `(t1) -> t2` with two distinct fresh
variables, because the `TypeVariable` case of the source overwrites the
`mappings` entry with a brand-new variable on every visit instead of
reusing an existing entry. -/
theorem freshInstance_not_consistent :
    (freshInstance c4state (.fn [.tvar 0] (.tvar 0))).2 = .fn [.tvar 1] (.tvar 2)
  ∧ Ty.tvar 1 ≠ Ty.tvar 2 := by
  refine ⟨rfl, ?_⟩
  intro h
  injection h with h'
  exact absurd h' (by decide)

/-- C3 counterexample: for `true + 1` (one operand of concrete type
`Bool`), the `+` rule does not unify the operands with `Number` and does
not return `Number`: it reports "The '+' operator requires either numeric
operands or string operands" and returns the fresh type variable `t0`. -/
theorem plus_with_bool_operand_not_numeric :
    resultTy (infer initialState c3node) = some (.tvar 0)
  ∧ Ty.tvar 0 ≠ Ty.prim "Number"
  ∧ resultErrors (infer initialState c3node) =
      some [⟨"The '+' operator requires either numeric operands or string operands at unknown position",
        c3node⟩] := by
  refine ⟨rfl, ?_, rfl⟩
  intro h
  exact Ty.noConfusion h

/-- C3 amended: for `+`, if both operand types compress to the `String`
primitive the result is `String` with no error; if exactly one does, one
concatenation error is reported and `String` is still returned; if
neither does and each operand compresses to a numeric primitive
(`Number`/`Float`) or to a type variable, both operands are unified with
`Number` and `Number` is returned; and if neither is a string but some
operand compresses to a concrete non-numeric, non-string type (such as
`Bool`), one error is reported and a fresh type variable is returned. -/
theorem binOpRule_plus_cases (s : St) (leftType rightType : Ty)
    (node left right : Node) :
    (isStringType s leftType = true → isStringType s rightType = true →
      binOpRule s "+" leftType rightType node left right = (s, primitive "String"))
  ∧ (isStringType s leftType ≠ isStringType s rightType →
      binOpRule s "+" leftType rightType node left right =
        (reportError "Cannot concatenate string with non-string value" node s,
          primitive "String"))
  ∧ (isStringType s leftType = false → isStringType s rightType = false →
      (isNumericType s leftType || isTypeVariable s leftType) = true →
      (isNumericType s rightType || isTypeVariable s rightType) = true →
      binOpRule s "+" leftType rightType node left right =
        (unify (unify s leftType (primitive "Number") left) rightType
          (primitive "Number") right, primitive "Number"))
  ∧ (isStringType s leftType = false → isStringType s rightType = false →
      ((isNumericType s leftType || isTypeVariable s leftType) = false ∨
       (isNumericType s rightType || isTypeVariable s rightType) = false) →
      binOpRule s "+" leftType rightType node left right =
        newTypeVar (reportError
          "The '+' operator requires either numeric operands or string operands"
          node s)) := by
  refine ⟨?_, ?_, ?_, ?_⟩
  · intro h1 h2
    simp [binOpRule, h1, h2]
  · intro h
    rcases Bool.eq_false_or_eq_true (isStringType s leftType) with hl | hl <;>
      rcases Bool.eq_false_or_eq_true (isStringType s rightType) with hr | hr <;>
      simp [hl, hr] at h ⊢ <;> simp [binOpRule, hl, hr]
  · intro h1 h2 h3 h4
    simp [binOpRule, h1, h2, h3, h4]
  · intro h1 h2 h3
    rcases h3 with h3 | h3 <;> simp [binOpRule, h1, h2, h3]

/-- C3 amended, witness: `Number + Number` takes the numeric branch. -/
theorem binOpRule_plus_cases_witness :
    binOpRule initialState "+" (.prim "Number") (.prim "Number") c3node
      (.booleanLiteral true none) (.numericLiteral 1 none) =
      (unify (unify initialState (.prim "Number") (primitive "Number")
        (.booleanLiteral true none)) (.prim "Number") (primitive "Number")
        (.numericLiteral 1 none), primitive "Number") :=
  (binOpRule_plus_cases initialState (.prim "Number") (.prim "Number") c3node
    (.booleanLiteral true none) (.numericLiteral 1 none)).2.2.1 rfl rfl rfl rfl

/-- C4: unifying an unbound type variable `v` with a type `T` that
contains `v` (reachable through `compress`) terminates with exactly one
"Infinite unification" error appended, the store unchanged, and `v` still
unresolved (no `symlink` set), rather than binding `v` or looping.  The
hypotheses state, in the source's own terms, that `v` is unbound, that the
compressed `T` is not the variable object itself (`t1 !== t2`), and that
the occurs check finds `v` inside the compressed `T`. -/
theorem unify_infinite_type_aborts (s : St) (v : Nat) (T : Ty) (node : Node)
    (hUnbound : s.store.lookup v = none)
    (hNotSelf : Ty.beq (compress s T) (.tvar v) = false)
    (hOccurs : occursIn s v (compress s T) = true) :
    (unify s (.tvar v) T node).errors = s.errors ++
      [⟨"Infinite unification: cannot unify " ++ typeToString s (.tvar v)
        ++ " with " ++ typeToString s (compress s T) ++ " at " ++ locationOf node,
        node⟩]
  ∧ (unify s (.tvar v) T node).store = s.store
  ∧ (unify s (.tvar v) T node).store.lookup v = none := by
  have hc1 : compress s (.tvar v) = .tvar v := by
    simp [compress, compressN, hUnbound]
  have key : unify s (.tvar v) T node =
      reportError ("Infinite unification: cannot unify "
        ++ typeToString s (compress s (.tvar v)) ++ " with "
        ++ typeToString s (compress s T)) node s := by
    simp only [unify, unifyN, hc1, hNotSelf, hOccurs]
    simp
  rw [key, hc1]
  refine ⟨?_, rfl, hUnbound⟩
  simp [reportError]

/-- C4 witness: the synthetic attempt `unify(t0, Array<t0>)` on a store
where `t0` is unbound. -/
theorem unify_infinite_type_aborts_witness :
    (unify c4state (.tvar 0) (.arr (.tvar 0)) c4node).errors = c4state.errors ++
      [⟨"Infinite unification: cannot unify t0 with Array<t0> at unknown position",
        c4node⟩]
  ∧ (unify c4state (.tvar 0) (.arr (.tvar 0)) c4node).store = c4state.store
  ∧ (unify c4state (.tvar 0) (.arr (.tvar 0)) c4node).store.lookup 0 = none :=
  unify_infinite_type_aborts c4state 0 (.arr (.tvar 0)) c4node rfl rfl rfl

/-- C5: with a non-empty name-error list, `typecheck` returns exactly that
list unchanged and performs no inference; with an absent or empty
name-error list it proceeds to run inference (`runTypecheck` from the
freshly reset state). -/
theorem typecheck_gates_on_name_errors (node : List Node ⊕ Node)
    (es : List TError) (h : es ≠ []) :
    typecheck node (some es) = .ok es
  ∧ typecheck node none = runTypecheck initialState node
  ∧ typecheck node (some []) = runTypecheck initialState node := by
  refine ⟨?_, rfl, rfl⟩
  simp only [typecheck]
  rw [if_pos]
  exact List.length_pos.mpr h

/-- C5 witness: one concrete name error is returned unchanged. -/
theorem typecheck_gates_on_name_errors_witness :
    typecheck (.inl c6prog) (some [c5err]) = .ok [c5err] :=
  (typecheck_gates_on_name_errors (.inl c6prog) [c5err] (by simp)).1

/-- C6: on `const x = 5; const y = x ? 1 : 2;`, type checking reports
exactly one error; that error is attached to the condition node and its
message carries the condition's source position.  Per the ternary rule,
the program's resulting type is the fresh result variable `t0` itself —
allocated by the rule and unified with both branches, not a branch's type
— and it compresses to `Number` in the final state. -/
theorem ternary_condition_single_error :
    typecheck (.inl c6prog) none =
      .ok [⟨"Type mismatch: Number is not compatible with Bool at position 26",
        c6condition⟩]
  ∧ resultErrors (infer initialState (.program c6prog)) =
      some [⟨"Type mismatch: Number is not compatible with Bool at position 26",
        c6condition⟩]
  ∧ resultTy (infer initialState (.program c6prog)) = some (.tvar 0)
  ∧ finalTyCompressed (infer initialState (.program c6prog)) = some (.prim "Number") :=
  ⟨rfl, rfl, rfl, rfl⟩

/-- C7: on `const arr = [1, "a", 3];`, type checking reports exactly one
error (for the mismatching second element, at its position), not two, and
the array's type is `Array<Number>` — `ArrayOf` of the first element's
type.  The last conjunct states the general shape: whenever a non-empty
array literal's inference completes, the returned type is `ArrayOf` of
the type inferred for the first element (the element loop only unifies,
it never changes the returned element type). -/
theorem array_homogeneity_single_error :
    typecheck (.inl c7prog) none =
      .ok [⟨"Type mismatch: Number is not compatible with String at position 16",
        .stringLiteral "a" (some 16)⟩]
  ∧ resultTy (infer initialState (.program c7prog)) = some (.arr (.prim "Number"))
  ∧ (∀ (fuel : Nat) (s : St) (e0 : Node) (rest : List Node) (pos : Option Nat)
      (s1 : St) (t0 : Ty) (s2 : St) (t : Ty),
      inferF fuel s e0 = .ok (s1, t0) →
      inferF (fuel + 1) s (.arrayLiteral (e0 :: rest) pos) = .ok (s2, t) →
      t = .arr t0) := by
  refine ⟨rfl, rfl, ?_⟩
  intro fuel s e0 rest pos s1 t0 s2 t h1 h2
  simp only [inferF, h1] at h2
  cases h3 : inferArrayRest fuel s1 t0 rest with
  | error e => simp [h3] at h2
  | ok s2' =>
    simp [h3, createArrayType] at h2
    exact h2.2.symm

/-- C7 witness: the one-element array `[1]` returns `Array<Number>`,
`ArrayOf` the first element's inferred type. -/
theorem array_homogeneity_single_error_witness :
    Ty.arr (.prim "Number") = Ty.arr (.prim "Number") :=
  array_homogeneity_single_error.2.2 1 initialState (.numericLiteral 1 none) []
    none initialState (.prim "Number") initialState (.arr (.prim "Number"))
    rfl rfl

/-- C8: the `ReturnStatement` rule does not return `Void` when the
argument is absent — for a bare `return;` (the parser emits `argument:
null`) it calls `infer(null)`, which reads `null.type` and throws a
TypeError, modelled as the `nullNode` crash.  (The `Void` behaviour the
spec describes exists only in the arrow-function rule's own handling of
its body's return statement, not in `inferTypeReturnStatement`.) -/
theorem return_without_argument_crashes (s : St) (pos : Option Nat) :
    infer s (.returnStatement none pos) = .error (.nullNode, s) := rfl

/-- C10: inferring an `Identifier` whose name has no binding anywhere in
the scope chain crashes (the lookup yields `undefined` and
`freshInstance(undefined)` dereferences it inside `compress`) instead of
returning a type or reporting a diagnostic. -/
theorem unbound_identifier_crashes (s : St) (name : String) (pos : Option Nat)
    (h : scopeLookup s.scopeFrames name = none) :
    infer s (.identifier name pos) = .error (.undefinedLookup name, s) := by
  have : infer s (.identifier name pos) = getType s name := rfl
  rw [this]
  simp [getType, h]

/-- C10 witness: the name `x` in the empty top-level scope. -/
theorem unbound_identifier_crashes_witness :
    infer initialState (.identifier "x" none) =
      .error (.undefinedLookup "x", initialState) :=
  unbound_identifier_crashes initialState "x" none rfl

/-- Every node has positive size. -/
theorem nodeSize_pos (n : Node) : 1 ≤ nodeSize n := by
  cases n with
  | returnStatement arg p => cases arg <;> simp [nodeSize]
  | _ => simp [nodeSize] <;> omega

/-- Every statement list has positive size. -/
theorem nodeListSize_pos (l : List Node) : 1 ≤ nodeListSize l := by
  cases l <;> simp [nodeListSize] <;> omega

/-- Fuel stabilization for the whole driver clique: once the fuel reaches
twice the structural size of the input, giving more fuel changes nothing —
the recursion of every rule descends only into structurally smaller
children, so its depth is bounded by the input's size. -/
theorem inferF_fuel_stable : ∀ fuel : Nat,
    (∀ (s : St) (n : Node), 2 * nodeSize n ≤ fuel → ∀ g, fuel ≤ g →
      inferF fuel s n = inferF g s n)
  ∧ (∀ (s : St) (t : Ty) (l : List Node), 2 * nodeListSize l ≤ fuel → ∀ g, fuel ≤ g →
      inferTypeProgramBody fuel s t l = inferTypeProgramBody g s t l)
  ∧ (∀ (s : St) (t : Ty) (l : List Node), 2 * nodeListSize l ≤ fuel → ∀ g, fuel ≤ g →
      inferArrayRest fuel s t l = inferArrayRest g s t l)
  ∧ (∀ (s : St) (l : List Node), 2 * nodeListSize l ≤ fuel → ∀ g, fuel ≤ g →
      inferCallArgsCollect fuel s l = inferCallArgsCollect g s l)
  ∧ (∀ (s : St) (l : List Node) (ps : List Ty), 2 * nodeListSize l ≤ fuel → ∀ g, fuel ≤ g →
      inferCallArgsUnify fuel s l ps = inferCallArgsUnify g s l ps)
  ∧ (∀ (s : St) (l : List Node), 2 * nodeListSize l ≤ fuel → ∀ g, fuel ≤ g →
      inferFirstReturn fuel s l = inferFirstReturn g s l)
  ∧ (∀ (s : St) (b : Bool) (l : List Node), 2 * nodeListSize l ≤ fuel → ∀ g, fuel ≤ g →
      inferFnStmtsSkippingReturn fuel s b l = inferFnStmtsSkippingReturn g s b l)
  ∧ (∀ (s : St) (params : List Param) (body : List Node) (ann : Option Annot)
      (pos : Option Nat), 2 * nodeListSize body + 1 ≤ fuel → ∀ g, fuel ≤ g →
      inferTypeFunction fuel s params body ann pos =
        inferTypeFunction g s params body ann pos) := by
  intro fuel
  induction fuel with
  | zero =>
    refine ⟨?_, ?_, ?_, ?_, ?_, ?_, ?_, ?_⟩
    · intro s n h; exact absurd h (by have := nodeSize_pos n; omega)
    · intro s t l h; exact absurd h (by have := nodeListSize_pos l; omega)
    · intro s t l h; exact absurd h (by have := nodeListSize_pos l; omega)
    · intro s l h; exact absurd h (by have := nodeListSize_pos l; omega)
    · intro s l ps h; exact absurd h (by have := nodeListSize_pos l; omega)
    · intro s l h; exact absurd h (by have := nodeListSize_pos l; omega)
    · intro s b l h; exact absurd h (by have := nodeListSize_pos l; omega)
    · intro s params body ann pos h; exact absurd h (by omega)
  | succ f ih =>
    obtain ⟨ihN, ihP, ihA, ihC, ihU, ihR, ihK, ihF⟩ := ih
    refine ⟨?_, ?_, ?_, ?_, ?_, ?_, ?_, ?_⟩
    · -- inferF
      intro s n h g hg
      cases g with
      | zero => omega
      | succ g' =>
      have hg' : f ≤ g' := by omega
      cases n with
      | program body =>
        have hb : 2 * nodeListSize body ≤ f := by simp [nodeSize] at h; omega
        simp only [inferF]
        exact ihP s (primitive "Unknown") body hb g' hg'
      | numericLiteral v p => rfl
      | stringLiteral v p => rfl
      | booleanLiteral v p => rfl
      | identifier nm p => rfl
      | unknownNode t p => rfl
      | arrayLiteral elements p =>
        cases elements with
        | nil => rfl
        | cons e0 rest =>
          have h1 : 2 * nodeSize e0 ≤ f := by
            simp [nodeSize, nodeListSize] at h
            have := nodeListSize_pos rest; omega
          have h2 : 2 * nodeListSize rest ≤ f := by
            simp [nodeSize, nodeListSize] at h
            have := nodeSize_pos e0; omega
          have hE := (ihN s e0 h1 g' hg').symm
          have hA := fun s' t' => (ihA s' t' rest h2 g' hg').symm
          simp only [inferF, hE, hA]
      | expressionStatement e p =>
        have h1 : 2 * nodeSize e ≤ f := by simp [nodeSize] at h; omega
        simp only [inferF]
        exact ihN s e h1 g' hg'
      | binaryExpression op l r p =>
        have h1 : 2 * nodeSize l ≤ f := by
          simp [nodeSize] at h; have := nodeSize_pos r; omega
        have h2 : 2 * nodeSize r ≤ f := by
          simp [nodeSize] at h; have := nodeSize_pos l; omega
        have hL := (ihN s l h1 g' hg').symm
        have hR := fun s' => (ihN s' r h2 g' hg').symm
        simp only [inferF, hL, hR]
      | conditionalExpression t c a p =>
        have h1 : 2 * nodeSize t ≤ f := by
          simp [nodeSize] at h
          have := nodeSize_pos c; have := nodeSize_pos a; omega
        have h2 : 2 * nodeSize c ≤ f := by
          simp [nodeSize] at h
          have := nodeSize_pos t; have := nodeSize_pos a; omega
        have h3 : 2 * nodeSize a ≤ f := by
          simp [nodeSize] at h
          have := nodeSize_pos t; have := nodeSize_pos c; omega
        have hT := (ihN s t h1 g' hg').symm
        have hC := fun s' => (ihN s' c h2 g' hg').symm
        have hA := fun s' => (ihN s' a h3 g' hg').symm
        simp only [inferF, hT, hC, hA]
      | arrowFunctionExpression params body ann p =>
        have hb : 2 * nodeListSize body + 1 ≤ f := by simp [nodeSize] at h; omega
        simp only [inferF]
        exact ihF s params body ann p hb g' hg'
      | callExpression callee args p =>
        have h1 : 2 * nodeSize callee ≤ f := by
          simp [nodeSize] at h; have := nodeListSize_pos args; omega
        have h2 : 2 * nodeListSize args ≤ f := by
          simp [nodeSize] at h; have := nodeSize_pos callee; omega
        have hCal := (ihN s callee h1 g' hg').symm
        have hU := fun s' ps' => (ihU s' args ps' h2 g' hg').symm
        have hC2 := fun s' => (ihC s' args h2 g' hg').symm
        simp only [inferF, hCal, hU, hC2]
      | memberExpression o i p =>
        have h1 : 2 * nodeSize o ≤ f := by
          simp [nodeSize] at h; have := nodeSize_pos i; omega
        have h2 : 2 * nodeSize i ≤ f := by
          simp [nodeSize] at h; have := nodeSize_pos o; omega
        have hO := (ihN s o h1 g' hg').symm
        have hI := fun s' => (ihN s' i h2 g' hg').symm
        simp only [inferF, hO, hI]
      | constDeclaration nm ip ann init p =>
        have h1 : 2 * nodeSize init ≤ f := by simp [nodeSize] at h; omega
        have hInit := (ihN s init h1 g' hg').symm
        simp only [inferF, hInit]
      | returnStatement arg p =>
        cases arg with
        | some a =>
          have h1 : 2 * nodeSize a ≤ f := by simp [nodeSize] at h; omega
          simp only [inferF]
          exact ihN s a h1 g' hg'
        | none => rfl
    · -- inferTypeProgramBody
      intro s t l h g hg
      cases g with
      | zero => omega
      | succ g' =>
      have hg' : f ≤ g' := by omega
      cases l with
      | nil => rfl
      | cons stmt rest =>
        have h1 : 2 * nodeSize stmt ≤ f := by
          simp [nodeListSize] at h; have := nodeListSize_pos rest; omega
        have h2 : 2 * nodeListSize rest ≤ f := by
          simp [nodeListSize] at h; have := nodeSize_pos stmt; omega
        have hS := (ihN s stmt h1 g' hg').symm
        have hW := fun s' t' => (ihP s' t' rest h2 g' hg').symm
        simp only [inferTypeProgramBody, hS, hW]
    · -- inferArrayRest
      intro s t l h g hg
      cases g with
      | zero => omega
      | succ g' =>
      have hg' : f ≤ g' := by omega
      cases l with
      | nil => rfl
      | cons el rest =>
        have h1 : 2 * nodeSize el ≤ f := by
          simp [nodeListSize] at h; have := nodeListSize_pos rest; omega
        have h2 : 2 * nodeListSize rest ≤ f := by
          simp [nodeListSize] at h; have := nodeSize_pos el; omega
        have hS := (ihN s el h1 g' hg').symm
        have hW := fun s' t' => (ihA s' t' rest h2 g' hg').symm
        simp only [inferArrayRest, hS, hW]
    · -- inferCallArgsCollect
      intro s l h g hg
      cases g with
      | zero => omega
      | succ g' =>
      have hg' : f ≤ g' := by omega
      cases l with
      | nil => rfl
      | cons arg rest =>
        have h1 : 2 * nodeSize arg ≤ f := by
          simp [nodeListSize] at h; have := nodeListSize_pos rest; omega
        have h2 : 2 * nodeListSize rest ≤ f := by
          simp [nodeListSize] at h; have := nodeSize_pos arg; omega
        have hS := (ihN s arg h1 g' hg').symm
        have hW := fun s' => (ihC s' rest h2 g' hg').symm
        simp only [inferCallArgsCollect, hS, hW]
    · -- inferCallArgsUnify
      intro s l ps h g hg
      cases g with
      | zero => omega
      | succ g' =>
      have hg' : f ≤ g' := by omega
      cases l with
      | nil => rfl
      | cons arg rest =>
        cases ps with
        | nil => rfl
        | cons paramType ps' =>
          have h1 : 2 * nodeSize arg ≤ f := by
            simp [nodeListSize] at h; have := nodeListSize_pos rest; omega
          have h2 : 2 * nodeListSize rest ≤ f := by
            simp [nodeListSize] at h; have := nodeSize_pos arg; omega
          have hS := (ihN s arg h1 g' hg').symm
          have hW := fun s' => (ihU s' rest ps' h2 g' hg').symm
          simp only [inferCallArgsUnify, hS, hW]
    · -- inferFirstReturn
      intro s l h g hg
      cases g with
      | zero => omega
      | succ g' =>
      have hg' : f ≤ g' := by omega
      cases l with
      | nil => rfl
      | cons stmt rest =>
        have h2 : 2 * nodeListSize rest ≤ f := by
          simp [nodeListSize] at h; have := nodeSize_pos stmt; omega
        cases stmt with
        | returnStatement arg p =>
          cases arg with
          | some a =>
            have h1 : 2 * nodeSize a ≤ f := by
              simp [nodeListSize, nodeSize] at h
              have := nodeListSize_pos rest; omega
            simp only [inferFirstReturn]
            rw [ihN s a h1 g' hg']
          | none => rfl
        | program body =>
          simp only [inferFirstReturn]; exact ihR s rest h2 g' hg'
        | numericLiteral v p =>
          simp only [inferFirstReturn]; exact ihR s rest h2 g' hg'
        | stringLiteral v p =>
          simp only [inferFirstReturn]; exact ihR s rest h2 g' hg'
        | booleanLiteral v p =>
          simp only [inferFirstReturn]; exact ihR s rest h2 g' hg'
        | arrayLiteral els p =>
          simp only [inferFirstReturn]; exact ihR s rest h2 g' hg'
        | expressionStatement e p =>
          simp only [inferFirstReturn]; exact ihR s rest h2 g' hg'
        | identifier nm p =>
          simp only [inferFirstReturn]; exact ihR s rest h2 g' hg'
        | binaryExpression op le ri p =>
          simp only [inferFirstReturn]; exact ihR s rest h2 g' hg'
        | conditionalExpression t c a p =>
          simp only [inferFirstReturn]; exact ihR s rest h2 g' hg'
        | arrowFunctionExpression params body ann p =>
          simp only [inferFirstReturn]; exact ihR s rest h2 g' hg'
        | callExpression callee args p =>
          simp only [inferFirstReturn]; exact ihR s rest h2 g' hg'
        | memberExpression o i p =>
          simp only [inferFirstReturn]; exact ihR s rest h2 g' hg'
        | constDeclaration nm ip ann init p =>
          simp only [inferFirstReturn]; exact ihR s rest h2 g' hg'
        | unknownNode t p =>
          simp only [inferFirstReturn]; exact ihR s rest h2 g' hg'
    · -- inferFnStmtsSkippingReturn
      intro s b l h g hg
      cases g with
      | zero => omega
      | succ g' =>
      have hg' : f ≤ g' := by omega
      cases l with
      | nil => rfl
      | cons stmt rest =>
        have h1 : 2 * nodeSize stmt ≤ f := by
          simp [nodeListSize] at h; have := nodeListSize_pos rest; omega
        have h2 : 2 * nodeListSize rest ≤ f := by
          simp [nodeListSize] at h; have := nodeSize_pos stmt; omega
        have hS := (ihN s stmt h1 g' hg').symm
        have hW := fun s' b' => (ihK s' b' rest h2 g' hg').symm
        simp only [inferFnStmtsSkippingReturn, hS, hW]
    · -- inferTypeFunction
      intro s params body ann pos h g hg
      cases g with
      | zero => omega
      | succ g' =>
      have hg' : f ≤ g' := by omega
      have hb : 2 * nodeListSize body ≤ f := by omega
      have hFR := (ihR (bindParams (pushScope s) params).1 body hb g' hg').symm
      have hSK := fun s' => (ihK s' false body hb g' hg').symm
      simp only [inferTypeFunction, hFR, hSK]

/-- C9: the inference pass terminates on every finite tree built from the
input contract's node kinds, malformed trees included: every rule recurses
strictly into structurally smaller children, so the driver's recursion
depth is bounded by twice the tree's structural size — beyond that bound
extra fuel never changes the result, i.e. `inferF` at any sufficient fuel
equals the `infer` entry point.  The only cycle risk, type-variable
self-reference, is blocked by the occurs check rather than by traversal
bounds: at any fuel, a unification of an unbound variable with a type
containing it leaves the store exactly as it was instead of creating the
self-referential binding a loop would need. -/
theorem inference_pass_terminates :
    (∀ (fuel : Nat) (s : St) (node : Node), 2 * nodeSize node ≤ fuel →
      inferF fuel s node = infer s node)
  ∧ (∀ (fuel : Nat) (s : St) (v : Nat) (T : Ty) (node : Node),
      s.store.lookup v = none →
      Ty.beq (compress s T) (.tvar v) = false →
      occursIn s v (compress s T) = true →
      (unifyN (fuel + 1) s (.tvar v) T node).store = s.store) := by
  constructor
  · intro fuel s node h
    have base := (inferF_fuel_stable (2 * nodeSize node)).1 s node (le_refl _)
    calc inferF fuel s node
        = inferF (2 * nodeSize node) s node := (base fuel h).symm
      _ = inferF (2 * nodeSize node + 1) s node := base _ (by omega)
      _ = infer s node := rfl
  · intro fuel s v T node hUnbound hNotSelf hOccurs
    have hc1 : compress s (.tvar v) = .tvar v := by
      simp [compress, compressN, hUnbound]
    simp only [unifyN, hc1, hNotSelf, hOccurs]
    simp [reportError]

/-- C9 witness: a literal at ample fuel, and the synthetic
`unify(t0, Array<t0>)` attempt leaving the store untouched. -/
theorem inference_pass_terminates_witness :
    inferF 5 initialState (.numericLiteral 1 none) =
      infer initialState (.numericLiteral 1 none)
  ∧ (unifyN 1 c4state (.tvar 0) (.arr (.tvar 0)) c4node).store = c4state.store :=
  ⟨inference_pass_terminates.1 5 initialState (.numericLiteral 1 none) (by decide),
   inference_pass_terminates.2 0 c4state 0 (.arr (.tvar 0)) c4node rfl rfl rfl⟩
